import Mathlib

/-!
# Verification of the Pinot traces exporter (`pinottracesexporter`)

A shallow embedding, in Lean 4, of the span-normalization and multi-target
write pipeline of `src/exporter/pinottracesexporter/pinot_exporter.go`, and
proofs of the specification claims about it.

Modelling conventions:
* Byte identifiers (`pdata.TraceID` / `pdata.SpanID`) are modelled as lists
  of byte values (`List Nat`), with the Go expression
  `len(parentSpanID.Bytes()) != 0` modelled verbatim as list non-emptiness.
  In the pinned collector model, `SpanID.Bytes()` returns a fixed `[8]byte`
  (`TraceID.Bytes()` a `[16]byte`), so a representable identifier is
  exactly a length-8 (resp. length-16) list, an absent identifier is the
  all-zero array — `pdata.InvalidSpanID()` — and the length check is
  constant-true at every representable input.
* `pdata.AttributeValue` is a tagged variant; its `StringVal()` accessor
  returns the payload only for string-typed values (otherwise `""`) and its
  `IntVal()` accessor returns the payload only for integer-typed values
  (otherwise `0`), as in the collector's pdata accessors.
* Attribute bags (`pdata.AttributeMap`) are association lists iterated in
  order by `Range`, with unique keys in well-formed inputs; `Get` finds the
  entry for a key.
* Go maps (`map[string]string`) are association lists with replace-on-insert
  semantics (`mapSet`) and a lookup that defaults to `""` (`lookupSD`), as Go
  map indexing does.
* `crypto/md5` is implemented bit-for-bit (RFC 1321) over UTF-8 bytes;
  `uuid.New()` is nondeterministic, so the uuid source is passed explicitly
  as a function from a draw counter to the drawn string.
* Kafka writes are external effects: each channel's outcome for a given span
  is supplied by an environment record, and the writers record which channels
  a call actually attempted to send to.
-/

/-- Lowercase hexadecimal digit for `n < 16`. -/
def hexDigit (n : Nat) : Char :=
  if n < 10 then Char.ofNat (48 + n) else Char.ofNat (87 + n)

/-- Two lowercase hex digits for one byte, as `hex.EncodeToString` produces. -/
def byteHex (b : Nat) : String :=
  String.mk [hexDigit (b / 16 % 16), hexDigit (b % 16)]

/-- `pdata.TraceID.HexString` / `pdata.SpanID.HexString`: the empty string for
an empty (absent) identifier, otherwise the lowercase hex encoding of the
bytes. -/
def idHexString (bs : List Nat) : String :=
  if bs.all (fun b => b = 0) then "" else String.join (bs.map byteHex)

/-- UTF-8 encoding of one Unicode code point, as Go `[]byte(string)` yields. -/
def utf8Bytes (c : Nat) : List Nat :=
  if c < 0x80 then [c]
  else if c < 0x800 then [0xc0 + c / 64, 0x80 + c % 64]
  else if c < 0x10000 then
    [0xe0 + c / 4096, 0x80 + c / 64 % 64, 0x80 + c % 64]
  else
    [0xf0 + c / 262144, 0x80 + c / 4096 % 64, 0x80 + c / 64 % 64, 0x80 + c % 64]

/-- The UTF-8 bytes of a string (Go `[]byte(s)`). -/
def strBytes (s : String) : List Nat :=
  s.data.foldr (fun c acc => utf8Bytes c.toNat ++ acc) []

/-- 32-bit left rotation. -/
def rotl32 (x n : Nat) : Nat :=
  ((x <<< n) % 4294967296) ||| (x >>> (32 - n))

/-- The MD5 round functions F, G, H, I (RFC 1321). -/
def md5F (i b c d : Nat) : Nat :=
  if i < 16 then (b &&& c) ||| ((b ^^^ 0xffffffff) &&& d)
  else if i < 32 then (b &&& d) ||| (c &&& (d ^^^ 0xffffffff))
  else if i < 48 then b ^^^ c ^^^ d
  else c ^^^ (b ||| (d ^^^ 0xffffffff))

/-- The MD5 message-word schedule. -/
def md5G (i : Nat) : Nat :=
  if i < 16 then i
  else if i < 32 then (5 * i + 1) % 16
  else if i < 48 then (3 * i + 5) % 16
  else (7 * i) % 16

/-- The MD5 per-step rotation amounts. -/
def md5S : List Nat :=
  [7, 12, 17, 22, 7, 12, 17, 22, 7, 12, 17, 22, 7, 12, 17, 22,
   5, 9, 14, 20, 5, 9, 14, 20, 5, 9, 14, 20, 5, 9, 14, 20,
   4, 11, 16, 23, 4, 11, 16, 23, 4, 11, 16, 23, 4, 11, 16, 23,
   6, 10, 15, 21, 6, 10, 15, 21, 6, 10, 15, 21, 6, 10, 15, 21]

/-- The MD5 sine-derived additive constants. -/
def md5K : List Nat :=
  [0xd76aa478, 0xe8c7b756, 0x242070db, 0xc1bdceee,
   0xf57c0faf, 0x4787c62a, 0xa8304613, 0xfd469501,
   0x698098d8, 0x8b44f7af, 0xffff5bb1, 0x895cd7be,
   0x6b901122, 0xfd987193, 0xa679438e, 0x49b40821,
   0xf61e2562, 0xc040b340, 0x265e5a51, 0xe9b6c7aa,
   0xd62f105d, 0x02441453, 0xd8a1e681, 0xe7d3fbc8,
   0x21e1cde6, 0xc33707d6, 0xf4d50d87, 0x455a14ed,
   0xa9e3e905, 0xfcefa3f8, 0x676f02d9, 0x8d2a4c8a,
   0xfffa3942, 0x8771f681, 0x6d9d6122, 0xfde5380c,
   0xa4beea44, 0x4bdecfa9, 0xf6bb4b60, 0xbebfbc70,
   0x289b7ec6, 0xeaa127fa, 0xd4ef3085, 0x04881d05,
   0xd9d4d039, 0xe6db99e5, 0x1fa27cf8, 0xc4ac5665,
   0xf4292244, 0x432aff97, 0xab9423a7, 0xfc93a039,
   0x655b59c3, 0x8f0ccc92, 0xffeff47d, 0x85845dd1,
   0x6fa87e4f, 0xfe2ce6e0, 0xa3014314, 0x4e0811a1,
   0xf7537e82, 0xbd3af235, 0x2ad7d2bb, 0xeb86d391]

/-- One MD5 step on the state `(a, b, c, d)`. -/
def md5Step (m : Nat → Nat) (st : Nat × Nat × Nat × Nat) (i : Nat) :
    Nat × Nat × Nat × Nat :=
  let (a, b, c, d) := st
  let f := (md5F i b c d + a + md5K.getD i 0 + m (md5G i)) % 4294967296
  (d, (b + rotl32 f (md5S.getD i 0)) % 4294967296, b, c)

/-- Process one 16-word block. -/
def md5Block (st : Nat × Nat × Nat × Nat) (block : List Nat) :
    Nat × Nat × Nat × Nat :=
  let m := fun j => block.getD j 0
  let (a, b, c, d) := (List.range 64).foldl (md5Step m) st
  ((st.1 + a) % 4294967296, (st.2.1 + b) % 4294967296,
   (st.2.2.1 + c) % 4294967296, (st.2.2.2 + d) % 4294967296)

/-- Group bytes into little-endian 32-bit words. -/
def leWords : List Nat → List Nat
  | b0 :: b1 :: b2 :: b3 :: rest =>
    (b0 + 256 * b1 + 65536 * b2 + 16777216 * b3) :: leWords rest
  | _ => []

/-- The eight little-endian bytes of a 64-bit value. -/
def leBytes8 (n : Nat) : List Nat :=
  [n % 256, n / 256 % 256, n / 65536 % 256, n / 16777216 % 256,
   n / 4294967296 % 256, n / 1099511627776 % 256,
   n / 281474976710656 % 256, n / 72057594037927936 % 256]

/-- The four little-endian bytes of a 32-bit value. -/
def leBytes4 (n : Nat) : List Nat :=
  [n % 256, n / 256 % 256, n / 65536 % 256, n / 16777216 % 256]

/-- MD5 padding: a `0x80` byte, zeros to 56 mod 64, then the message bit
length as a 64-bit little-endian value. -/
def md5Pad (msg : List Nat) : List Nat :=
  let len := msg.length
  let z := (56 + 64 - (len + 1) % 64) % 64
  msg ++ 0x80 :: List.replicate z 0 ++ leBytes8 (len * 8 % 18446744073709551616)

/-- Split a byte list into 64-byte chunks; the fuel argument (any bound on
the list length) keeps the recursion structural. -/
def chunks64Go : Nat → List Nat → List (List Nat)
  | _, [] => []
  | 0, _ => []
  | fuel + 1, b :: rest => (b :: rest.take 63) :: chunks64Go fuel (rest.drop 63)

/-- Split a byte list into 64-byte chunks. -/
def chunks64 (l : List Nat) : List (List Nat) := chunks64Go l.length l

/-- The MD5 digest (16 bytes) of a byte sequence.  Checked against the RFC
1321 test vectors (for instance `md5Hex "abc"` evaluates to
`900150983cd24fb0d6963f7d28e17f72`). -/
def md5Bytes (msg : List Nat) : List Nat :=
  let blocks := chunks64 (md5Pad msg)
  let st := blocks.foldl (fun st blk => md5Block st (leWords blk))
    (0x67452301, 0xefcdab89, 0x98badcfe, 0x10325476)
  leBytes4 st.1 ++ leBytes4 st.2.1 ++ leBytes4 st.2.2.1 ++ leBytes4 st.2.2.2

/-- `fmt.Sprintf("%x", md5.Sum([]byte(s)))`: the lowercase-hex MD5 digest of
a string, as the source computes the error-group id. -/
def md5Hex (s : String) : String :=
  String.join ((md5Bytes (strBytes s)).map byteHex)

/-- One entry of the reference list built for the trace model
(`OtelSpanRef` in the source). -/
structure OtelSpanRef where
  TraceId : String
  SpanId : String
  RefType : String
deriving DecidableEq, Repr

/-- A span link (`pdata.SpanLink`): the linked trace and span identifiers. -/
structure SpanLink where
  traceID : List Nat
  spanID : List Nat
deriving DecidableEq, Repr

/-- `makeJaegerProtoReferences` from the source.  The guard models
`len(parentSpanID.Bytes()) != 0` verbatim; since `Bytes()` returns a fixed
`[8]byte` in the pinned pdata, the guard is constant-true at every
representable (length-8) parent id — including the all-zero id of a root
span — so the `(nil, nil)` early return is dead code in the program and a
zero parent id produces a `CHILD_OF` reference whose span id is
`HexString()` of the zero id, i.e. the empty string (see
`references_zero_parent_code_bug`).  When the parent is counted as set the
parent reference (type `CHILD_OF`) comes first, followed by one
`FOLLOWS_FROM` reference per link, in link order.  The error component is
always `none`, mirroring the Go function which never returns a non-nil
error. -/
def makeJaegerProtoReferences (links : List SpanLink) (parentSpanID : List Nat)
    (traceID : List Nat) : List OtelSpanRef × Option String :=
  let parentSpanIDSet : Bool := !parentSpanID.isEmpty
  if !parentSpanIDSet && links.isEmpty then
    ([], none)
  else
    let parentRefs : List OtelSpanRef :=
      if parentSpanIDSet then
        [{ TraceId := idHexString traceID, SpanId := idHexString parentSpanID,
           RefType := "CHILD_OF" }]
      else []
    let linkRefs : List OtelSpanRef :=
      links.map fun link =>
        { TraceId := idHexString link.traceID, SpanId := idHexString link.spanID,
          RefType := "FOLLOWS_FROM" }
    (parentRefs ++ linkRefs, none)

/-- `pdata.AttributeValue`: a tagged attribute value.  `double` and `emptyV`
carry no payload because the source only ever reads attribute values through
`StringVal` and `IntVal`, which return `""` / `0` for those types (as for
`BOOL`, `MAP`, `ARRAY`). -/
inductive AttributeValue where
  | str (s : String)
  | int (i : Int)
  | boolV (b : Bool)
  | double
  | emptyV
deriving DecidableEq, Repr

/-- `AttributeValue.Type().String()`. -/
def AttributeValue.typeName : AttributeValue → String
  | .str _ => "STRING"
  | .int _ => "INT"
  | .boolV _ => "BOOL"
  | .double => "DOUBLE"
  | .emptyV => "EMPTY"

/-- `AttributeValue.StringVal()`: the payload for string values, `""`
otherwise. -/
def AttributeValue.stringVal : AttributeValue → String
  | .str s => s
  | _ => ""

/-- `AttributeValue.IntVal()`: the payload for integer values, `0`
otherwise. -/
def AttributeValue.intVal : AttributeValue → Int
  | .int i => i
  | _ => 0

/-- An attribute bag (`pdata.AttributeMap`), iterated in order by `Range`. -/
def AttributeMap := List (String × AttributeValue)

/-- `AttributeMap.Get`: the value stored for a key. -/
def lookupAttr (m : List (String × AttributeValue)) (k : String) :
    Option AttributeValue :=
  (m.find? (fun p => p.1 == k)).map (fun p => p.2)

/-- Go `map[string]string` assignment `m[k] = v`: replace the entry for `k`
if present, otherwise append it. -/
def mapSet : List (String × String) → String → String → List (String × String)
  | [], k, v => [(k, v)]
  | (k', v') :: rest, k, v =>
    if k' = k then (k, v) :: rest else (k', v') :: mapSet rest k v

/-- Go map lookup `m[k]` as an option. -/
def lookupS (m : List (String × String)) (k : String) : Option String :=
  (m.find? (fun p => p.1 == k)).map (fun p => p.2)

/-- Go map lookup `m[k]`, defaulting to the zero value `""`. -/
def lookupSD (m : List (String × String)) (k : String) : String :=
  (lookupS m k).getD ""

/-- Go `strconv.Atoi` digit run: `none` when empty or when a non-digit
occurs. -/
def digitsVal : List Char → Option Nat
  | [] => none
  | cs =>
    cs.foldl
      (fun acc c =>
        match acc with
        | none => none
        | some n => if c.isDigit then some (n * 10 + (c.toNat - 48)) else none)
      (some 0)

/-- Go `strconv.Atoi`: an optional sign followed by at least one digit, with
the 64-bit range check (`ErrRange` makes Go return a non-nil error, which the
caller treats the same as a syntax error). -/
def atoi (s : String) : Option Int :=
  let signDigits : Int × List Char :=
    match s.data with
    | '-' :: rest => (-1, rest)
    | '+' :: rest => (1, rest)
    | cs => (1, cs)
  match digitsVal signDigits.2 with
  | none => none
  | some n =>
    let v : Int := signDigits.1 * n
    if v < -9223372036854775808 ∨ 9223372036854775807 < v then none else some v

/-- Go `int8(x)`: two's-complement truncation to 8 bits. -/
def int8cast (i : Int) : Int := (i + 128) % 256 - 128

/-- Go `int16(x)`: two's-complement truncation to 16 bits. -/
def int16cast (i : Int) : Int := (i + 32768) % 65536 - 32768

/-- Go `uint64` subtraction `a - b`, wrapping modulo `2^64`. -/
def sub64 (a b : Nat) : Nat :=
  (a + 18446744073709551616 - b % 18446744073709551616) % 18446744073709551616

/-!
## A model of Go `net/url`: `url.Parse` followed by `URL.Hostname()`

`populateOtherDimensions` only uses the parse result through `Hostname()`,
so the model computes `none` when `url.Parse` fails and `some hostname`
otherwise.  It follows the control flow of Go's `Parse`/`parse`/
`parseAuthority`/`parseHost`/`unescape`/`splitHostPort`:

* the fragment is cut at the first `#` before anything else; control
  characters in the pre-fragment part (only) are errors; a leading `:` is a
  missing-scheme error; the query is cut at the first `?`;
* a URL with a scheme and no leading `/` is opaque (empty host, and its
  opaque remainder is not escape-checked); a scheme-less first path segment
  containing `:` is an error;
* the authority is read after `//` up to `/`; user info (up to the last
  `@`) must consist of the characters `validUserinfo` allows and carry
  well-formed percent-escapes; an invalid port (a non-digit after the last
  `:` of the host) is an error;
* the host is percent-unescaped in `encodeHost` mode: a malformed escape is
  an error, an escape of an ASCII byte (first hex digit `< 8`) other than
  `%25` is an error (so Go rejects `http://ex%41mple.com/`), and other
  escapes are decoded; a bracketed host with a `%25`-introduced RFC 6874
  zone identifier unescapes the zone in `encodeZone` mode, which also
  admits escapes of space and of unreserved host bytes;
* the path remainder and a nonempty fragment must carry well-formed
  percent-escapes (`setPath`/`setFragment`); the query is stored raw and
  never checked;
* `Hostname()` strips a valid optional port and surrounding IPv6 brackets
  from the decoded host.

Decoded escape bytes are represented one character per byte (Go strings are
byte strings), which agrees byte-for-byte with Go on the escape-free
hostnames the claims exercise. -/

/-- Control bytes make `url.Parse` fail. -/
def isCtl (c : Char) : Bool := c.toNat < 32 || c.toNat == 127

/-- Position of the `:` ending a valid scheme, as in Go `getScheme`. -/
def schemeEnd : Nat → List Char → Option Nat
  | _, [] => none
  | i, c :: rest =>
    if c = ':' then some i
    else if c.isAlpha then schemeEnd (i + 1) rest
    else if 0 < i ∧ (c.isDigit ∨ c = '+' ∨ c = '-' ∨ c = '.') then
      schemeEnd (i + 1) rest
    else none

/-- Go `getScheme`: the scheme (possibly `""`) and the remainder; `none` for
a leading `:` (missing protocol scheme). -/
def getSchemeM (cs : List Char) : Option (String × List Char) :=
  match schemeEnd 0 cs with
  | some 0 => none
  | some i => some (String.mk (cs.take i), cs.drop (i + 1))
  | none => some ("", cs)

/-- Whether a character occurs in the list. -/
def hasChar (ch : Char) (cs : List Char) : Bool := cs.any (fun x => x == ch)

/-- The portion after the last occurrence of `ch` (the whole list when `ch`
is absent). -/
def afterLast (ch : Char) (cs : List Char) : List Char :=
  ((cs.reverse).takeWhile (fun x => x != ch)).reverse

/-- Does the list start with the given character? -/
def startsWith1 (cs : List Char) (c : Char) : Bool :=
  match cs with
  | x :: _ => x == c
  | [] => false

/-- Does the list start with the two given characters? -/
def startsWith2 (cs : List Char) (a b : Char) : Bool :=
  match cs with
  | x :: y :: _ => x == a && y == b
  | _ => false

/-- Does the list start with the three given characters? -/
def startsWith3 (cs : List Char) (a b c : Char) : Bool :=
  match cs with
  | x :: y :: z :: _ => x == a && y == b && z == c
  | _ => false

/-- Does the list end with the given character? -/
def endsWith1 (cs : List Char) (c : Char) : Bool :=
  match cs.getLast? with
  | some x => x == c
  | none => false

/-- Is the character an ASCII hex digit (Go `ishex`)? -/
def ishexChar (c : Char) : Bool :=
  c.isDigit || ('a' ≤ c && c ≤ 'f') || ('A' ≤ c && c ≤ 'F')

/-- The value of an ASCII hex digit (Go `unhex`). -/
def unhexChar (c : Char) : Nat :=
  if c.isDigit then c.toNat - 48
  else if 'a' ≤ c ∧ c ≤ 'f' then c.toNat - 87
  else if 'A' ≤ c ∧ c ≤ 'F' then c.toNat - 55
  else 0

/-- Well-formedness of percent-escapes, as Go `unescape` checks it in the
modes without extra per-byte restrictions (path, user info, fragment):
every `%` must be followed by two hex digits. -/
def validEscapes : List Char → Bool
  | [] => true
  | '%' :: a :: b :: rest => ishexChar a && ishexChar b && validEscapes rest
  | '%' :: _ => false
  | _ :: rest => validEscapes rest

/-- Go `unescape` in `encodeHost` mode: a malformed escape fails, an escape
of an ASCII byte (first hex digit `< 8`) other than `%25` fails, any other
escape is decoded (one character per byte). -/
def unescapeHost : List Char → Option (List Char)
  | [] => some []
  | '%' :: a :: b :: rest =>
    if ishexChar a && ishexChar b then
      if unhexChar a < 8 && !(a = '2' && b = '5') then none
      else
        match unescapeHost rest with
        | some t => some (Char.ofNat (16 * unhexChar a + unhexChar b) :: t)
        | none => none
    else none
  | '%' :: _ => none
  | c :: rest =>
    match unescapeHost rest with
    | some t => some (c :: t)
    | none => none

/-- The bytes Go `shouldEscape` leaves unescaped in a host: alphanumerics,
RFC 3986 sub-delims plus a few extras, and the unreserved marks. -/
def hostExtraChars : List Char :=
  ['!', '$', '&', Char.ofNat 39, '(', ')', '*', '+', ',', ';', '=', ':',
   '[', ']', '<', '>', '"', '-', '_', '.', '~']

/-- `shouldEscape(v, encodeHost) = false`: a byte legal in a host without
escaping. -/
def isHostByteAllowed (v : Nat) : Bool :=
  (48 ≤ v && v ≤ 57) || (65 ≤ v && v ≤ 90) || (97 ≤ v && v ≤ 122) ||
    hostExtraChars.any (fun c => c.toNat == v)

/-- Go `unescape` in `encodeZone` mode (RFC 6874 zone identifiers): a
malformed escape fails, and an escape must be `%25`, a space, or a byte
that is legal in a host without escaping. -/
def unescapeZone : List Char → Option (List Char)
  | [] => some []
  | '%' :: a :: b :: rest =>
    if ishexChar a && ishexChar b then
      let v := 16 * unhexChar a + unhexChar b
      if !(a = '2' && b = '5') && v ≠ 32 && !isHostByteAllowed v then none
      else
        match unescapeZone rest with
        | some t => some (Char.ofNat v :: t)
        | none => none
    else none
  | '%' :: _ => none
  | c :: rest =>
    match unescapeZone rest with
    | some t => some (c :: t)
    | none => none

/-- The index of the last occurrence of a character. -/
def lastIndexOfChar (ch : Char) (cs : List Char) : Option Nat :=
  ((cs.enum.filter (fun p => p.2 == ch)).map Prod.fst).getLast?

/-- The index of the first occurrence of the substring `%25`. -/
def indexOfPct25 : List Char → Option Nat
  | '%' :: '2' :: '5' :: _ => some 0
  | _ :: rest =>
    match indexOfPct25 rest with
    | some n => some (n + 1)
    | none => none
  | [] => none

/-- Go `parseHost`: reject a missing `]` for a bracketed host and a
non-digit port after the last `:`; unescape a `%25`-introduced zone
identifier in zone mode and everything else in host mode, propagating
escape errors; return the decoded host (with port). -/
def parseHostM (host : List Char) : Option (List Char) :=
  if startsWith1 host '[' then
    match lastIndexOfChar ']' host with
    | none => none
    | some i =>
      let portOk :=
        match host.drop (i + 1) with
        | [] => true
        | c :: ds => c == ':' && ds.all Char.isDigit
      if portOk then
        match indexOfPct25 (host.take i) with
        | some z =>
          match unescapeHost (host.take z),
              unescapeZone ((host.take i).drop z), unescapeHost (host.drop i) with
          | some h1, some h2, some h3 => some (h1 ++ h2 ++ h3)
          | _, _, _ => none
        | none => unescapeHost host
      else none
  else
    if hasChar ':' host then
      if (afterLast ':' host).all Char.isDigit then unescapeHost host else none
    else unescapeHost host

/-- Go `splitHostPort` as used by `Hostname()`: strip a valid optional port
and then surrounding IPv6 brackets. -/
def splitHostPortHost (host : List Char) : List Char :=
  let h :=
    if hasChar ':' host then
      let p := afterLast ':' host
      if p.all Char.isDigit then host.take (host.length - p.length - 1) else host
    else host
  if startsWith1 h '[' ∧ endsWith1 h ']' then (h.drop 1).take (h.length - 2)
  else h

/-- A character Go `validUserinfo` accepts. -/
def validUserinfoChar (c : Char) : Bool :=
  c.isAlpha || c.isDigit ||
    ['-', '.', '_', ':', '~', '!', '$', '&', Char.ofNat 39, '(', ')', '*',
      '+', ',', ';', '=', '%', '@'].any (fun x => x == c)

/-- Go `parseAuthority`: parse the host after the last `@`; when user info
is present it must consist of `validUserinfo` characters with well-formed
percent-escapes.  Returns the decoded host. -/
def parseAuthorityM (authority : List Char) : Option (List Char) :=
  match lastIndexOfChar '@' authority with
  | none => parseHostM authority
  | some i =>
    let userinfo := authority.take i
    match parseHostM (authority.drop (i + 1)) with
    | none => none
    | some h =>
      if userinfo.all validUserinfoChar then
        if validEscapes userinfo then some h else none
      else none

/-- Go `parse(u, viaRequest := false)` on the pre-fragment part of the URL,
returning the `Host` field: control characters are errors, `*` is the
wildcard URL with no host, a URL with a scheme and no leading `/` is opaque
(no host, no path check), a scheme-less first path segment containing `:`
is an error, the authority (when present after `//`) is parsed and the path
remainder must have well-formed escapes (`setPath`). -/
def parseNoFragHost (u : List Char) : Option (List Char) :=
  if u.any isCtl then none
  else if u = ['*'] then some []
  else
    match getSchemeM u with
    | none => none
    | some (sch, rest0) =>
      let rest := rest0.takeWhile (fun c => c != '?')
      if ¬ startsWith1 rest '/' ∧ sch ≠ "" then some []
      else if ¬ startsWith1 rest '/' ∧ sch = "" ∧
          hasChar ':' (rest.takeWhile (fun c => c != '/')) then none
      else if startsWith2 rest '/' '/' ∧ (sch ≠ "" ∨ ¬ startsWith3 rest '/' '/' '/') then
        let authority := (rest.drop 2).takeWhile (fun c => c != '/')
        let path := (rest.drop 2).dropWhile (fun c => c != '/')
        match parseAuthorityM authority with
        | none => none
        | some h => if validEscapes path then some h else none
      else
        if validEscapes rest then some [] else none

/-- `url.Parse(value)` followed by `.Hostname()`: `none` when parsing fails
(the caller then keeps the literal value), otherwise the hostname, which is
empty for URLs without an authority.  As in Go `Parse`, the fragment is cut
at the first `#` before parsing and, when nonempty, must have well-formed
percent-escapes (`setFragment`). -/
def urlHostname (s : String) : Option String :=
  let raw := s.data
  let u := raw.takeWhile (fun c => c != '#')
  let frag := (raw.dropWhile (fun c => c != '#')).drop 1
  match parseNoFragHost u with
  | none => none
  | some h =>
    if frag ≠ [] ∧ ¬ validEscapes frag then none
    else some (String.mk (splitHostPortHost h))

/-- An event record (`Event` in the source): name, timestamp, flattened
string attributes, and the error marker. -/
structure Event where
  Name : String
  TimeUnixNano : Nat
  AttributeMap : List (String × String)
  IsError : Bool
deriving DecidableEq, Repr

/-- The zero value `Event{}`. -/
def emptyEvent : Event :=
  { Name := "", TimeUnixNano := 0, AttributeMap := [], IsError := false }

/-- The trace-model view embedded in a normalized span (`TraceModel` in the
source), with the fields the exporter assigns. -/
structure TraceModel where
  TraceId : String
  SpanId : String
  Name : String
  DurationNano : Nat
  StartTimeUnixNano : Nat
  ServiceName : String
  Kind : Int
  References : List OtelSpanRef
  TagMap : List (String × String)
  HasError : Bool
  Events : List String
deriving DecidableEq, Repr

/-- The normalized span record (`Span` in the source), with the fields the
exporter reads or assigns. -/
structure Span where
  TraceId : String
  SpanId : String
  ParentSpanId : String
  Name : String
  StartTimeUnixNano : Nat
  DurationNano : Nat
  ServiceName : String
  Kind : Int
  StatusCode : Int
  TagMap : List (String × String)
  HasError : Bool
  HttpCode : String
  ResponseStatusCode : String
  ExternalHttpUrl : String
  ExternalHttpMethod : String
  HttpUrl : String
  HttpMethod : String
  HttpRoute : String
  HttpHost : String
  MsgSystem : String
  MsgOperation : String
  Component : String
  DBSystem : String
  DBName : String
  DBOperation : String
  PeerService : String
  GRPCCode : String
  GRPCMethod : String
  RPCMethod : String
  RPCService : String
  RPCSystem : String
  Events : List String
  ErrorEvent : Event
  ErrorID : String
  ErrorGroupID : String
  TraceModel : TraceModel
deriving DecidableEq, Repr

/-- A raw input span event (`pdata.SpanEvent`). -/
structure SpanEvent where
  name : String
  timestamp : Nat
  attributes : List (String × AttributeValue)
deriving DecidableEq, Repr

/-- A raw input span (`pdata.Span`), with the pieces the exporter reads. -/
structure RawSpan where
  traceID : List Nat
  spanID : List Nat
  parentSpanID : List Nat
  name : String
  startTimestamp : Nat
  endTimestamp : Nat
  kind : Int
  statusCode : Int
  attributes : List (String × AttributeValue)
  events : List SpanEvent
  links : List SpanLink
deriving DecidableEq, Repr

/-- A resource (`pdata.Resource`): its attribute bag. -/
structure Resource where
  attributes : List (String × AttributeValue)
deriving DecidableEq, Repr

/-- `ServiceNameForResource`: the string value of the `service.name`
resource attribute, or the sentinel when absent. -/
def ServiceNameForResource (resource : Resource) : String :=
  match lookupAttr resource.attributes "service.name" with
  | some service => service.stringVal
  | none => "<nil-service-name>"

/-- JSON string escaping for one character. -/
def jsonEscapeChar (c : Char) : String :=
  if c = '"' then "\\\""
  else if c = '\\' then "\\\\"
  else if c = '\n' then "\\n"
  else if c = '\r' then "\\r"
  else if c = '\t' then "\\t"
  else if c.toNat < 32 then "\\u00" ++ byteHex c.toNat
  else String.mk [c]

/-- JSON string escaping. -/
def jsonEscape (s : String) : String := String.join (s.data.map jsonEscapeChar)

/-- Insertion into a key-sorted entry list (Go's `json.Marshal` emits map
keys in sorted order). -/
def insertSorted (x : String × String) :
    List (String × String) → List (String × String)
  | [] => [x]
  | y :: rest => if x.1 ≤ y.1 then x :: y :: rest else y :: insertSorted x rest

/-- Sort map entries by key. -/
def sortedEntries (m : List (String × String)) : List (String × String) :=
  m.foldr insertSorted []

/-- Modelled from the spec: `json.Marshal(event)` — "serializes it to a
compact encoded form".  The Go `Event` struct declaration (with its JSON
field tags) is not under `src/`, so the field names follow the serialized
event schema the spec describes; no claim inspects the serialized text. -/
def jsonEncodeEvent (e : Event) : String :=
  let entries := (sortedEntries e.AttributeMap).map
    (fun p => "\"" ++ jsonEscape p.1 ++ "\":\"" ++ jsonEscape p.2 ++ "\"")
  "\x7b\"name\":\"" ++ jsonEscape e.Name ++ "\",\"timeUnixNano\":" ++
    toString e.TimeUnixNano ++ ",\"attributeMap\":\x7b" ++
    String.intercalate "," entries ++ "\x7d,\"isError\":" ++
    (if e.IsError then "true" else "false") ++ "\x7d"

/-- `strings.Replace(s, "-", "", -1)`: remove every hyphen (used to
normalize the fresh uuid). -/
def removeHyphens (s : String) : String :=
  String.mk (s.data.filter (fun c => c != '-'))

/-- The `rpc.grpc.status_code` resolution: `statusString, err :=
strconv.Atoi(v.StringVal())`, preferred over `v.IntVal()` when it parses to
a nonzero value. -/
def grpcStatusInt (v : AttributeValue) : Int :=
  match atoi v.stringVal with
  | some statusString => if statusString ≠ 0 then statusString else v.intVal
  | none => v.intVal

/-- One step of the `Range` callback of `populateOtherDimensions`, for the
attribute `k = v`; `attributes` is the whole bag, which the `rpc.method`
branch consults for a sibling `rpc.system` attribute. -/
def processAttribute (attributes : List (String × AttributeValue)) (sp : Span)
    (k : String) (v : AttributeValue) : Span :=
  if k = "http.status_code" then
    let sp := if 400 ≤ v.intVal then { sp with HasError := true } else sp
    let sp := { sp with HttpCode := toString v.intVal }
    { sp with ResponseStatusCode := sp.HttpCode }
  else if k = "http.url" ∧ sp.Kind = 3 then
    let value := v.stringVal
    let value :=
      match urlHostname value with
      | some h => h
      | none => value
    { sp with ExternalHttpUrl := value }
  else if k = "http.method" ∧ sp.Kind = 3 then
    { sp with ExternalHttpMethod := v.stringVal }
  else if k = "http.url" ∧ sp.Kind ≠ 3 then
    { sp with HttpUrl := v.stringVal }
  else if k = "http.method" ∧ sp.Kind ≠ 3 then
    { sp with HttpMethod := v.stringVal }
  else if k = "http.route" then
    { sp with HttpRoute := v.stringVal }
  else if k = "http.host" then
    { sp with HttpHost := v.stringVal }
  else if k = "messaging.system" then
    { sp with MsgSystem := v.stringVal }
  else if k = "messaging.operation" then
    { sp with MsgOperation := v.stringVal }
  else if k = "component" then
    { sp with Component := v.stringVal }
  else if k = "db.system" then
    { sp with DBSystem := v.stringVal }
  else if k = "db.name" then
    { sp with DBName := v.stringVal }
  else if k = "db.operation" then
    { sp with DBOperation := v.stringVal }
  else if k = "peer.service" then
    { sp with PeerService := v.stringVal }
  else if k = "rpc.grpc.status_code" then
    let statusInt : Int := grpcStatusInt v
    let sp := if 2 ≤ statusInt then { sp with HasError := true } else sp
    let sp := { sp with GRPCCode := toString statusInt }
    { sp with ResponseStatusCode := sp.GRPCCode }
  else if k = "rpc.method" then
    let sp := { sp with RPCMethod := v.stringVal }
    match lookupAttr attributes "rpc.system" with
    | some system =>
      if system.stringVal = "grpc" then { sp with GRPCMethod := v.stringVal }
      else sp
    | none => sp
  else if k = "rpc.service" then
    { sp with RPCService := v.stringVal }
  else if k = "rpc.system" then
    { sp with RPCSystem := v.stringVal }
  else if k = "rpc.jsonrpc.error_code" then
    { sp with ResponseStatusCode := v.stringVal }
  else sp

/-- `populateOtherDimensions`: range over the span attributes, projecting
known semantic keys onto the named fields. -/
def populateOtherDimensions (attributes : List (String × AttributeValue))
    (sp : Span) : Span :=
  attributes.foldl (fun s kv => processAttribute attributes s kv.1 kv.2) sp

/-- The event record built for one raw event before the exception branch:
integer attribute values are formatted as decimal text, every other value by
`StringVal`. -/
def buildEvent (e : SpanEvent) : Event :=
  { Name := e.name, TimeUnixNano := e.timestamp,
    AttributeMap :=
      e.attributes.foldl
        (fun m kv =>
          if kv.2.typeName = "INT" then mapSet m kv.1 (toString kv.2.intVal)
          else mapSet m kv.1 kv.2.stringVal)
        [],
    IsError := false }

/-- The designated error-event record for an exception event. -/
def excEventOf (e : SpanEvent) : Event := { buildEvent e with IsError := true }

/-- The flattened `exception.type` attribute of an event. -/
def excType (e : SpanEvent) : String :=
  lookupSD (buildEvent e).AttributeMap "exception.type"

/-- The flattened `exception.message` attribute of an event. -/
def excMsg (e : SpanEvent) : String :=
  lookupSD (buildEvent e).AttributeMap "exception.message"

/-- The loop body of `populateEvents` for one raw event.  The accumulator
carries the span plus the number of uuids drawn so far; `u` is the
nondeterministic uuid source (`uuid.New()` stringified with hyphens). -/
def processEvent (u : Nat → String) (acc : Span × Nat) (e : SpanEvent) :
    Span × Nat :=
  let sp0 := acc.1
  let n := acc.2
  let ev0 := buildEvent e
  let step : Event × Span × Nat :=
    if ev0.Name = "exception" then
      let ev := { ev0 with IsError := true }
      let sp :=
        { sp0 with
          ErrorEvent := ev,
          ErrorID := removeHyphens (u n),
          ErrorGroupID :=
            md5Hex (sp0.ServiceName ++ lookupSD ev.AttributeMap "exception.type"
              ++ lookupSD ev.AttributeMap "exception.message") }
      (ev, sp, n + 1)
    else (ev0, sp0, n)
  let ev := step.1
  let sp := step.2.1
  ({ sp with Events := sp.Events ++ [jsonEncodeEvent ev] }, step.2.2)

/-- `populateEvents`: serialize every event in order; each `exception` event
overwrites the designated error event, draws a fresh error id, and derives
the error-group id from service name plus exception type and message. -/
def populateEvents (events : List SpanEvent) (u : Nat → String) (sp : Span) :
    Span :=
  (events.foldl (processEvent u) (sp, 0)).1

/-- `populateTraceModel`: copy the serialized events and error flag into the
embedded trace-model view. -/
def populateTraceModel (sp : Span) : Span :=
  { sp with TraceModel :=
      { sp.TraceModel with Events := sp.Events, HasError := sp.HasError } }

/-- One step of the two tag-map `Range` callbacks in `newStructuredSpan`:
integer values are stored as decimal text, other values as their
`StringVal` — but only when that string form is nonempty. -/
def tagMapStep (m : List (String × String)) (kv : String × AttributeValue) :
    List (String × String) :=
  if kv.2.typeName = "INT" then mapSet m kv.1 (toString kv.2.intVal)
  else if kv.2.stringVal ≠ "" then mapSet m kv.1 kv.2.stringVal
  else m

/-- The merged tag map of `newStructuredSpan`: span attributes first, then
resource attributes over them. -/
def buildTagMap (attributes resourceAttributes : List (String × AttributeValue)) :
    List (String × String) :=
  resourceAttributes.foldl tagMapStep (attributes.foldl tagMapStep [])

/-- `newStructuredSpan`: build the normalized record for one raw span. -/
def newStructuredSpan (otelSpan : RawSpan) (serviceName : String)
    (resource : Resource) (u : Nat → String) : Span :=
  let durationNano := sub64 otelSpan.endTimestamp otelSpan.startTimestamp
  let attributes := otelSpan.attributes
  let resourceAttributes := resource.attributes
  let tagMap := buildTagMap attributes resourceAttributes
  let references :=
    (makeJaegerProtoReferences otelSpan.links otelSpan.parentSpanID
      otelSpan.traceID).1
  let span : Span :=
    { TraceId := idHexString otelSpan.traceID,
      SpanId := idHexString otelSpan.spanID,
      ParentSpanId := idHexString otelSpan.parentSpanID,
      Name := otelSpan.name,
      StartTimeUnixNano := otelSpan.startTimestamp,
      DurationNano := durationNano,
      ServiceName := serviceName,
      Kind := int8cast otelSpan.kind,
      StatusCode := int16cast otelSpan.statusCode,
      TagMap := tagMap,
      HasError := false,
      HttpCode := "", ResponseStatusCode := "", ExternalHttpUrl := "",
      ExternalHttpMethod := "", HttpUrl := "", HttpMethod := "",
      HttpRoute := "", HttpHost := "", MsgSystem := "", MsgOperation := "",
      Component := "", DBSystem := "", DBName := "", DBOperation := "",
      PeerService := "", GRPCCode := "", GRPCMethod := "", RPCMethod := "",
      RPCService := "", RPCSystem := "", Events := [],
      ErrorEvent := emptyEvent, ErrorID := "", ErrorGroupID := "",
      TraceModel :=
        { TraceId := idHexString otelSpan.traceID,
          SpanId := idHexString otelSpan.spanID,
          Name := otelSpan.name,
          DurationNano := durationNano,
          StartTimeUnixNano := otelSpan.startTimestamp,
          ServiceName := serviceName,
          Kind := int8cast otelSpan.kind,
          References := references,
          TagMap := tagMap,
          HasError := false,
          Events := [] } }
  let span := if span.StatusCode = 2 then { span with HasError := true } else span
  let span := populateOtherDimensions attributes span
  let span := populateEvents otelSpan.events u span
  populateTraceModel span

/-- The output channels a span write can send to. -/
inductive Chan where
  | model
  | index
  | error
deriving DecidableEq, Repr

/-- The broker outcome for each channel when writing one span: `some e`
means `WriteMessages` returns the error `e`, `none` means it succeeds.
JSON marshalling of the three payloads is modelled as infallible: the
marshalled values are strings, integers, booleans, string lists and string
maps, which `json.Marshal` never rejects. -/
structure KafkaOutcome where
  model : Option String
  index : Option String
  error : Option String
deriving DecidableEq, Repr

/-- Which of the three writers of the `storage` struct are configured
(non-nil). -/
structure StorageConf where
  spanWriterConfigured : Bool
  indexWriterConfigured : Bool
  errorWriterConfigured : Bool
deriving DecidableEq, Repr

/-- `writeModel`: marshal and send the trace-model message; the result is
the broker outcome, and the model channel is attempted. -/
def writeModel (out : KafkaOutcome) (_sp : Span) : Option String × List Chan :=
  (out.model, [Chan.model])

/-- `writeIndex`: marshal and send the index message. -/
def writeIndex (out : KafkaOutcome) (_sp : Span) : Option String × List Chan :=
  (out.index, [Chan.index])

/-- `writeError`: a no-op (no send) when the span has no designated error
event, otherwise marshal and send the error message. -/
def writeError (out : KafkaOutcome) (sp : Span) : Option String × List Chan :=
  if sp.ErrorEvent.Name = "" then (none, [])
  else (out.error, [Chan.error])

/-- `storage.write`: model write, then index write, then error write — each
only if its writer is configured, fail-fast on the first error.  Returns the
error result together with the channels to which a send was attempted. -/
def write (st : StorageConf) (out : KafkaOutcome) (sp : Span) :
    Option String × List Chan :=
  let step1 : Option String × List Chan :=
    if st.spanWriterConfigured then writeModel out sp else (none, [])
  match step1 with
  | (some e, a1) => (some e, a1)
  | (none, a1) =>
    let step2 : Option String × List Chan :=
      if st.indexWriterConfigured then writeIndex out sp else (none, [])
    match step2 with
    | (some e, a2) => (some e, a1 ++ a2)
    | (none, a2) =>
      let step3 : Option String × List Chan :=
        if st.errorWriterConfigured then writeError out sp else (none, [])
      (step3.1, a1 ++ a2 ++ step3.2)

/-- A scope (`InstrumentationLibrarySpans`): its span list. -/
structure InstrumentationLibrarySpans where
  spans : List RawSpan
deriving DecidableEq, Repr

/-- A resource group (`ResourceSpans`): the resource and its scopes. -/
structure ResourceSpans where
  resource : Resource
  ilss : List InstrumentationLibrarySpans
deriving DecidableEq, Repr

/-- The spans of a batch in iteration order, each with the service name
resolved from its resource. -/
def flattenTraces (td : List ResourceSpans) :
    List (String × Resource × RawSpan) :=
  td.foldl
    (fun acc rs =>
      rs.ilss.foldl
        (fun acc2 ils =>
          acc2 ++ ils.spans.map
            (fun s => (ServiceNameForResource rs.resource, rs.resource, s)))
        acc)
    []

/-- The number of spans in a batch. -/
def totalSpans (td : List ResourceSpans) : Nat :=
  (td.map (fun rs => (rs.ilss.map (fun ils => ils.spans.length)).sum)).sum

/-- The body of the innermost `pushTraceData` loop, for one span: normalize
it, write it, log the write result.  The accumulator carries the number of
spans handled so far and the collected log entries. -/
def pushSpanStep (st : StorageConf) (out : Nat → KafkaOutcome)
    (u : Nat → Nat → String) (acc : Nat × List (Option String))
    (item : String × Resource × RawSpan) : Nat × List (Option String) :=
  let structuredSpan := newStructuredSpan item.2.2 item.1 item.2.1 (u acc.1)
  let res := (write st (out acc.1) structuredSpan).1
  (acc.1 + 1, acc.2 ++ [res])

/-- `storage.pushTraceData`: normalize and write every span of the batch in
order; every per-span write error is logged (collected in the second
component) and the function returns `nil` (the first component).  `out`
gives the broker outcome for the i-th span, `u` the uuid source for the
i-th span. -/
def pushTraceData (st : StorageConf) (out : Nat → KafkaOutcome)
    (u : Nat → Nat → String) (td : List ResourceSpans) :
    Option String × List (Option String) :=
  ((none : Option String),
    ((flattenTraces td).foldl (pushSpanStep st out u) (0, [])).2)

/-- C1: evaluation of the reference builder at the program-faithful
representation of a span with an absent parent (the all-zero `[8]byte`
id, `pdata.InvalidSpanID()`) and no links.  Because
`len(parentSpanID.Bytes())` is the constant 8 for a fixed `[8]byte`, the
code does not return the empty reference list the claim (and the spec's
contract) promises: it emits one `CHILD_OF` reference whose span id is
`HexString()` of the zero id, the empty string. -/
theorem references_zero_parent_code_bug :
    makeJaegerProtoReferences [] [0, 0, 0, 0, 0, 0, 0, 0] [1, 2] =
      ([{ TraceId := "0102", SpanId := "", RefType := "CHILD_OF" }], none) := by
  decide

/-- C2: for every span with a nonzero (present) parent span id, the reference
list has size `1 + number of links`, no error is returned, the first entry is
a `CHILD_OF` reference carrying the parent span id and the span's trace id,
and entry `i + 1` is the `FOLLOWS_FROM` reference of link `i`, in link
order. -/
theorem references_parent_first_then_links (links : List SpanLink)
    (parentSpanID traceID : List Nat) (h : parentSpanID ≠ []) :
    (makeJaegerProtoReferences links parentSpanID traceID).2 = none ∧
    (makeJaegerProtoReferences links parentSpanID traceID).1.length =
      1 + links.length ∧
    (makeJaegerProtoReferences links parentSpanID traceID).1.head? =
      some { TraceId := idHexString traceID, SpanId := idHexString parentSpanID,
             RefType := "CHILD_OF" } ∧
    ∀ i link, links.get? i = some link →
      (makeJaegerProtoReferences links parentSpanID traceID).1.get? (i + 1) =
        some { TraceId := idHexString link.traceID,
               SpanId := idHexString link.spanID, RefType := "FOLLOWS_FROM" } := by
  obtain ⟨b, bs, rfl⟩ : ∃ b bs, parentSpanID = b :: bs := by
    cases parentSpanID with
    | nil => exact absurd rfl h
    | cons b bs => exact ⟨b, bs, rfl⟩
  refine ⟨rfl, ?_, rfl, ?_⟩
  · simp [makeJaegerProtoReferences]
    omega
  · intro i link hlink
    rw [List.get?_eq_getElem?] at hlink
    simp [makeJaegerProtoReferences, List.get?_eq_getElem?, List.getElem?_map,
      hlink]

/-- Witness for C2 at a concrete input: parent id `[1, 2]`, trace id `[3]`,
one link. -/
theorem references_parent_first_then_links_witness :
    ([1, 2] : List Nat) ≠ [] ∧
    ((makeJaegerProtoReferences [⟨[5], [6]⟩] [1, 2] [3]).2 = none ∧
     (makeJaegerProtoReferences [⟨[5], [6]⟩] [1, 2] [3]).1.length = 1 + 1 ∧
     (makeJaegerProtoReferences [⟨[5], [6]⟩] [1, 2] [3]).1.head? =
       some { TraceId := idHexString [3], SpanId := idHexString [1, 2],
              RefType := "CHILD_OF" } ∧
     ∀ i link, ([⟨[5], [6]⟩] : List SpanLink).get? i = some link →
       (makeJaegerProtoReferences [⟨[5], [6]⟩] [1, 2] [3]).1.get? (i + 1) =
         some { TraceId := idHexString link.traceID,
                SpanId := idHexString link.spanID, RefType := "FOLLOWS_FROM" }) :=
  ⟨by decide, by
    have h := references_parent_first_then_links [⟨[5], [6]⟩] [1, 2] [3]
      (by decide)
    simpa using h⟩

/-- A concrete normalized span with zeroed fields, used by the concrete
witnesses below. -/
def sampleSpan : Span :=
  { TraceId := "", SpanId := "", ParentSpanId := "", Name := "",
    StartTimeUnixNano := 0, DurationNano := 0, ServiceName := "",
    Kind := 0, StatusCode := 0, TagMap := [], HasError := false,
    HttpCode := "", ResponseStatusCode := "", ExternalHttpUrl := "",
    ExternalHttpMethod := "", HttpUrl := "", HttpMethod := "",
    HttpRoute := "", HttpHost := "", MsgSystem := "", MsgOperation := "",
    Component := "", DBSystem := "", DBName := "", DBOperation := "",
    PeerService := "", GRPCCode := "", GRPCMethod := "", RPCMethod := "",
    RPCService := "", RPCSystem := "", Events := [],
    ErrorEvent := emptyEvent, ErrorID := "", ErrorGroupID := "",
    TraceModel :=
      { TraceId := "", SpanId := "", Name := "", DurationNano := 0,
        StartTimeUnixNano := 0, ServiceName := "", Kind := 0,
        References := [], TagMap := [], HasError := false, Events := [] } }

/-- C4: for a `rpc.grpc.status_code` attribute, the resulting code is the
string form parsed as an integer when that parse succeeds with a nonzero
value, and the numeric form otherwise; a code `≥ 2` sets the has-error flag
while a smaller code leaves it unchanged; and the decimal-formatted code is
stored into both the GRPC-code field and the response-status-code field. -/
theorem grpc_status_code_projection
    (attributes : List (String × AttributeValue)) (sp : Span)
    (v : AttributeValue) (code : Int) (hc : code = grpcStatusInt v) :
    (2 ≤ code →
      (processAttribute attributes sp "rpc.grpc.status_code" v).HasError = true) ∧
    (code < 2 →
      (processAttribute attributes sp "rpc.grpc.status_code" v).HasError =
        sp.HasError) ∧
    (processAttribute attributes sp "rpc.grpc.status_code" v).GRPCCode =
      toString code ∧
    (processAttribute attributes sp "rpc.grpc.status_code" v).ResponseStatusCode =
      toString code := by
  subst hc
  refine ⟨?_, ?_, ?_, ?_⟩
  · intro h2
    simp [processAttribute, h2]
  · intro h2
    simp [processAttribute, not_le.mpr h2]
  · by_cases h2 : 2 ≤ grpcStatusInt v <;> simp [processAttribute, h2]
  · by_cases h2 : 2 ≤ grpcStatusInt v <;> simp [processAttribute, h2]

/-- Witness for C4: the string value `"2"` sets has-error and stores `"2"`;
the string value `"0"` (whose numeric fallback is `0`) leaves has-error
unset and stores `"0"`. -/
theorem grpc_status_code_projection_witness :
    (processAttribute [] sampleSpan "rpc.grpc.status_code"
      (AttributeValue.str "2")).HasError = true ∧
    (processAttribute [] sampleSpan "rpc.grpc.status_code"
      (AttributeValue.str "2")).GRPCCode = "2" ∧
    (processAttribute [] sampleSpan "rpc.grpc.status_code"
      (AttributeValue.str "0")).HasError = false := by
  have h2 := grpc_status_code_projection [] sampleSpan (AttributeValue.str "2")
    2 (by decide)
  have h0 := grpc_status_code_projection [] sampleSpan (AttributeValue.str "0")
    0 (by decide)
  refine ⟨h2.1 (by decide), ?_, ?_⟩
  · rw [h2.2.2.1]
    rfl
  · rw [h0.2.1 (by decide)]
    rfl

/-- Whether a raw event is named `exception`. -/
def isExceptionEvent (e : SpanEvent) : Bool := e.name == "exception"

/-- `processEvent` on an `exception` event: build the error-event record,
draw the next uuid as the error id, derive the group id from service name
and exception type/message, and append the serialized event. -/
theorem processEvent_exception (u : Nat → String) (sp : Span) (n : Nat)
    (e : SpanEvent) (he : isExceptionEvent e = true) :
    processEvent u (sp, n) e =
      ({ sp with
          ErrorEvent := excEventOf e,
          ErrorID := removeHyphens (u n),
          ErrorGroupID := md5Hex (sp.ServiceName ++ excType e ++ excMsg e),
          Events := sp.Events ++ [jsonEncodeEvent (excEventOf e)] }, n + 1) := by
  have hn : (buildEvent e).Name = "exception" := by
    simpa [buildEvent, isExceptionEvent] using he
  simp [processEvent, hn, excEventOf, excType, excMsg]

/-- `processEvent` on a non-`exception` event: only the serialized event is
appended. -/
theorem processEvent_plain (u : Nat → String) (sp : Span) (n : Nat)
    (e : SpanEvent) (he : isExceptionEvent e = false) :
    processEvent u (sp, n) e =
      ({ sp with Events := sp.Events ++ [jsonEncodeEvent (buildEvent e)] }, n) := by
  have hn : ¬ (buildEvent e).Name = "exception" := by
    simpa [buildEvent, isExceptionEvent] using he
  simp [processEvent, hn]

/-- Characterization of the `populateEvents` loop: starting from span `sp`
with `n` uuids already drawn, the error fields are untouched when no
`exception` event occurs, and otherwise carry the data of the last
`exception` event, with the group id computed from the (invariant) service
name. -/
theorem populateEvents_go_spec (u : Nat → String) (events : List SpanEvent) :
    ∀ (sp : Span) (n : Nat),
      ((events.filter isExceptionEvent) = [] →
        ((events.foldl (processEvent u) (sp, n)).1.ErrorEvent = sp.ErrorEvent ∧
         (events.foldl (processEvent u) (sp, n)).1.ErrorID = sp.ErrorID ∧
         (events.foldl (processEvent u) (sp, n)).1.ErrorGroupID =
           sp.ErrorGroupID)) ∧
      (∀ l, (events.filter isExceptionEvent).getLast? = some l →
        ((events.foldl (processEvent u) (sp, n)).1.ErrorEvent = excEventOf l ∧
         (events.foldl (processEvent u) (sp, n)).1.ErrorID =
           removeHyphens
             (u (n + (events.filter isExceptionEvent).length - 1)) ∧
         (events.foldl (processEvent u) (sp, n)).1.ErrorGroupID =
           md5Hex (sp.ServiceName ++ excType l ++ excMsg l))) := by
  induction events with
  | nil =>
    intro sp n
    refine ⟨fun _ => ⟨rfl, rfl, rfl⟩, fun l hl => ?_⟩
    simp at hl
  | cons e rest ih =>
    intro sp n
    by_cases he : isExceptionEvent e
    · rw [List.filter_cons_of_pos he]
      rw [List.foldl_cons, processEvent_exception u sp n e he]
      set spE : Span :=
        { sp with
          ErrorEvent := excEventOf e,
          ErrorID := removeHyphens (u n),
          ErrorGroupID := md5Hex (sp.ServiceName ++ excType e ++ excMsg e),
          Events := sp.Events ++ [jsonEncodeEvent (excEventOf e)] } with hspE
      constructor
      · intro h
        exact absurd h (List.cons_ne_nil _ _)
      · intro l hl
        rcases hfr : rest.filter isExceptionEvent with _ | ⟨f, fr⟩
        · rw [hfr] at hl
          rw [List.getLast?_singleton] at hl
          obtain rfl : e = l := Option.some.inj hl
          have h1 := ((ih spE (n + 1)).1 hfr)
          refine ⟨?_, ?_, ?_⟩
          · rw [h1.1, hspE]
          · rw [h1.2.1, hspE]
            simp
          · rw [h1.2.2, hspE]
        · rw [hfr] at hl
          rw [List.getLast?_cons_cons] at hl
          have h2 := (ih spE (n + 1)).2 l (by rw [hfr]; exact hl)
          refine ⟨h2.1, ?_, ?_⟩
          · rw [h2.2.1, hfr]
            have harith : n + 1 + (f :: fr).length - 1 =
                n + (e :: f :: fr).length - 1 := by
              simp only [List.length_cons]
              omega
            rw [harith]
          · rw [h2.2.2, hspE]
    · rw [List.filter_cons_of_neg (by simpa using he)]
      rw [List.foldl_cons,
        processEvent_plain u sp n e (by simpa using he)]
      exact ih _ n

/-- C3: the error-group id is a deterministic function of (service name,
exception type, exception message): two `populateEvents` runs whose spans
carry the same service name and whose last exception events carry the same
flattened `exception.type` and `exception.message` attributes produce the
identical group id string — whatever the uuid draws, the other span fields,
and the other events are. -/
theorem errorGroupID_deterministic (sp1 sp2 : Span)
    (evs1 evs2 : List SpanEvent) (u1 u2 : Nat → String) (l1 l2 : SpanEvent)
    (hsvc : sp1.ServiceName = sp2.ServiceName)
    (h1 : (evs1.filter isExceptionEvent).getLast? = some l1)
    (h2 : (evs2.filter isExceptionEvent).getLast? = some l2)
    (hty : excType l1 = excType l2) (hmsg : excMsg l1 = excMsg l2) :
    (populateEvents evs1 u1 sp1).ErrorGroupID =
      (populateEvents evs2 u2 sp2).ErrorGroupID := by
  have r1 := ((populateEvents_go_spec u1 evs1 sp1 0).2 l1 h1).2.2
  have r2 := ((populateEvents_go_spec u2 evs2 sp2 0).2 l2 h2).2.2
  simp only [populateEvents]
  rw [r1, r2, hsvc, hty, hmsg]

/-- A concrete exception event. -/
def excSampleEvent1 : SpanEvent :=
  { name := "exception", timestamp := 5,
    attributes := [("exception.type", AttributeValue.str "E"),
                   ("exception.message", AttributeValue.str "m")] }

/-- A concrete exception event with the same type/message in another order
plus an extra integer attribute. -/
def excSampleEvent2 : SpanEvent :=
  { name := "exception", timestamp := 9,
    attributes := [("exception.message", AttributeValue.str "m"),
                   ("exception.type", AttributeValue.str "E"),
                   ("extra", AttributeValue.int 7)] }

/-- A concrete non-exception event. -/
def logSampleEvent : SpanEvent :=
  { name := "log", timestamp := 1, attributes := [] }

/-- Witness for C3: two runs over different spans, different event lists and
different uuid sources, agreeing only on service name and on the last
exception's type and message, yield equal group ids. -/
theorem errorGroupID_deterministic_witness :
    ({ sampleSpan with ServiceName := "svc" } : Span).ServiceName =
      ({ sampleSpan with ServiceName := "svc", TraceId := "t2" } : Span).ServiceName ∧
    ([excSampleEvent1].filter isExceptionEvent).getLast? = some excSampleEvent1 ∧
    ([logSampleEvent, excSampleEvent2].filter isExceptionEvent).getLast? =
      some excSampleEvent2 ∧
    excType excSampleEvent1 = excType excSampleEvent2 ∧
    excMsg excSampleEvent1 = excMsg excSampleEvent2 ∧
    (populateEvents [excSampleEvent1] (fun _ => "aaaa-bb")
        { sampleSpan with ServiceName := "svc" }).ErrorGroupID =
      (populateEvents [logSampleEvent, excSampleEvent2] (fun n => toString n)
        { sampleSpan with ServiceName := "svc", TraceId := "t2" }).ErrorGroupID :=
  ⟨by decide, by decide, by decide, by decide, by decide,
    errorGroupID_deterministic { sampleSpan with ServiceName := "svc" }
      { sampleSpan with ServiceName := "svc", TraceId := "t2" }
      [excSampleEvent1] [logSampleEvent, excSampleEvent2]
      (fun _ => "aaaa-bb") (fun n => toString n)
      excSampleEvent1 excSampleEvent2
      (by decide) (by decide) (by decide) (by decide) (by decide)⟩

/-- C9: when a span's event list contains more than one `exception` event,
the single designated error event on the record, together with the error id
and the error-group id, is the one derived from the last exception event in
input order (the error id being the uuid drawn while processing that last
exception). -/
theorem populateEvents_last_exception_wins (events : List SpanEvent)
    (u : Nat → String) (sp : Span) (l : SpanEvent)
    (hmany : 1 < (events.filter isExceptionEvent).length)
    (hlast : (events.filter isExceptionEvent).getLast? = some l) :
    (populateEvents events u sp).ErrorEvent = excEventOf l ∧
    (populateEvents events u sp).ErrorID =
      removeHyphens (u ((events.filter isExceptionEvent).length - 1)) ∧
    (populateEvents events u sp).ErrorGroupID =
      md5Hex (sp.ServiceName ++ excType l ++ excMsg l) := by
  have r := (populateEvents_go_spec u events sp 0).2 l hlast
  simp only [populateEvents]
  refine ⟨r.1, ?_, r.2.2⟩
  rw [r.2.1]
  simp

/-- Witness for C9 at a concrete two-exception event list: the second
exception's data wins and the second uuid draw becomes the error id. -/
theorem populateEvents_last_exception_wins_witness :
    1 < ([excSampleEvent1, excSampleEvent2].filter isExceptionEvent).length ∧
    ([excSampleEvent1, excSampleEvent2].filter isExceptionEvent).getLast? =
      some excSampleEvent2 ∧
    ((populateEvents [excSampleEvent1, excSampleEvent2] (fun n => toString n)
        sampleSpan).ErrorEvent = excEventOf excSampleEvent2 ∧
     (populateEvents [excSampleEvent1, excSampleEvent2] (fun n => toString n)
        sampleSpan).ErrorID =
       removeHyphens ((fun n => toString n)
         (([excSampleEvent1, excSampleEvent2].filter isExceptionEvent).length - 1)) ∧
     (populateEvents [excSampleEvent1, excSampleEvent2] (fun n => toString n)
        sampleSpan).ErrorGroupID =
       md5Hex (sampleSpan.ServiceName ++ excType excSampleEvent2 ++
         excMsg excSampleEvent2)) :=
  ⟨by decide, by decide,
    populateEvents_last_exception_wins [excSampleEvent1, excSampleEvent2]
      (fun n => toString n) sampleSpan excSampleEvent2 (by decide) (by decide)⟩

/-- A tag-map value is recorded only when the attribute is integer-typed or
has a nonempty string form. -/
def tagEligible (v : AttributeValue) : Prop :=
  v.typeName = "INT" ∨ v.stringVal ≠ ""

instance : DecidablePred tagEligible := fun v => by
  unfold tagEligible
  infer_instance

/-- The string stored in the tag map for an attribute value. -/
def tagRender (v : AttributeValue) : String :=
  if v.typeName = "INT" then toString v.intVal else v.stringVal

/-- `tagMapStep` inserts the rendered value exactly when the attribute is
eligible. -/
theorem tagMapStep_eq (m : List (String × String)) (kv : String × AttributeValue) :
    tagMapStep m kv =
      if tagEligible kv.2 then mapSet m kv.1 (tagRender kv.2) else m := by
  by_cases hint : kv.2.typeName = "INT"
  · simp [tagMapStep, tagRender, tagEligible, hint]
  · by_cases hstr : kv.2.stringVal = ""
    · simp [tagMapStep, tagRender, tagEligible, hint, hstr]
    · simp [tagMapStep, tagRender, tagEligible, hint, hstr]

/-- Looking up the inserted key finds the inserted value. -/
theorem lookupS_mapSet_self (m : List (String × String)) (k v : String) :
    lookupS (mapSet m k v) k = some v := by
  induction m with
  | nil => simp [mapSet, lookupS]
  | cons p rest ih =>
    obtain ⟨k', v'⟩ := p
    by_cases h : k' = k
    · subst h
      simp [mapSet, lookupS]
    · rw [mapSet, if_neg h]
      simpa [lookupS, List.find?_cons, h] using ih

/-- Inserting one key leaves lookups of other keys unchanged. -/
theorem lookupS_mapSet_ne (m : List (String × String)) (k v k' : String)
    (h : k' ≠ k) :
    lookupS (mapSet m k v) k' = lookupS m k' := by
  induction m with
  | nil => simp [mapSet, lookupS, List.find?_cons, Ne.symm h]
  | cons p rest ih =>
    obtain ⟨k0, v0⟩ := p
    by_cases h0 : k0 = k
    · subst h0
      simp [mapSet, lookupS, List.find?_cons, Ne.symm h]
    · rw [mapSet, if_neg h0]
      by_cases h1 : k0 = k'
      · subst h1
        simp [lookupS, List.find?_cons]
      · simpa [lookupS, List.find?_cons, h1] using ih

/-- When every occurrence of key `k` in the attribute list is ineligible,
folding the tag-map step leaves the lookup of `k` unchanged. -/
theorem foldl_tagMapStep_lookup_of_not_elig (k : String) :
    ∀ (l : List (String × AttributeValue)) (m : List (String × String)),
      (∀ kv ∈ l, kv.1 = k → ¬ tagEligible kv.2) →
      lookupS (l.foldl tagMapStep m) k = lookupS m k := by
  intro l
  induction l with
  | nil => intro m _; rfl
  | cons p rest ih =>
    intro m hp
    rw [List.foldl_cons, tagMapStep_eq,
      ih _ (fun kv hkv => hp kv (List.mem_cons_of_mem p hkv))]
    by_cases helig : tagEligible p.2
    · rw [if_pos helig]
      have hk : p.1 ≠ k := by
        intro hk
        exact hp p (List.mem_cons_self p rest) hk helig
      exact lookupS_mapSet_ne m p.1 (tagRender p.2) k (Ne.symm hk)
    · rw [if_neg helig]

/-- When the keys of the attribute list are distinct and `(k, v)` occurs in
it with an eligible value, folding the tag-map step makes the lookup of `k`
the rendering of `v`. -/
theorem foldl_tagMapStep_lookup_of_mem (k : String) (v : AttributeValue) :
    ∀ (l : List (String × AttributeValue)) (m : List (String × String)),
      (l.map Prod.fst).Nodup → (k, v) ∈ l → tagEligible v →
      lookupS (l.foldl tagMapStep m) k = some (tagRender v) := by
  intro l
  induction l with
  | nil => intro m _ hmem; exact absurd hmem (List.not_mem_nil _)
  | cons p rest ih =>
    intro m hnodup hmem helig
    rw [List.map_cons, List.nodup_cons] at hnodup
    rcases List.mem_cons.mp hmem with hhead | htail
    · have hpk : p.1 = k := by rw [← hhead]
      have hknotin : ∀ kv ∈ rest, kv.1 = k → ¬ tagEligible kv.2 := by
        intro kv hkv hk
        have hmem2 : kv.1 ∈ List.map Prod.fst rest :=
          List.mem_map_of_mem Prod.fst hkv
        rw [hk, ← hpk] at hmem2
        exact absurd hmem2 hnodup.1
      rw [List.foldl_cons,
        foldl_tagMapStep_lookup_of_not_elig k rest _ hknotin,
        tagMapStep_eq, ← hhead]
      rw [if_pos helig]
      exact lookupS_mapSet_self m k (tagRender v)
    · have hk : p.1 ≠ k := by
        intro hkeq
        exact hnodup.1 (hkeq ▸ List.mem_map_of_mem Prod.fst htail)
      rw [List.foldl_cons, tagMapStep_eq]
      by_cases he : tagEligible p.2
      · rw [if_pos he]
        exact ih _ hnodup.2 htail helig
      · rw [if_neg he]
        exact ih _ hnodup.2 htail helig

/-- Counterexample to C6 as stated: the key `"k"` is present in both bags,
but because the resource-level value is a non-integer whose string form is
empty, the merged tag map keeps the span-level value `"a"`, not the
resource-level value. -/
theorem tagMap_resource_precedence_counterexample :
    lookupS (buildTagMap [("k", AttributeValue.str "a")]
      [("k", AttributeValue.str "")]) "k" = some "a" ∧
    some (tagRender (AttributeValue.str "")) ≠ some "a" := by
  constructor
  · decide
  · decide

/-- C6 (amended): the merged tag map is built by first applying the span's
attributes and then the resource's attributes over them, so that on any key
present in both bags whose resource-level value is integer-typed or has a
nonempty string form, the resource-level value's rendering is the one
present in the final tag map. -/
theorem tagMap_resource_precedence_amended
    (spanAttrs resAttrs : List (String × AttributeValue)) (k : String)
    (v : AttributeValue) (hnodup : (resAttrs.map Prod.fst).Nodup)
    (hres : (k, v) ∈ resAttrs) (helig : tagEligible v)
    (hspan : k ∈ spanAttrs.map Prod.fst) :
    lookupS (buildTagMap spanAttrs resAttrs) k = some (tagRender v) :=
  foldl_tagMapStep_lookup_of_mem k v resAttrs
    (spanAttrs.foldl tagMapStep []) hnodup hres helig

/-- Witness for the amended C6: an integer resource attribute overrides the
span-level string entry for the same key. -/
theorem tagMap_resource_precedence_amended_witness :
    ((([("k", AttributeValue.int 7)] : List (String × AttributeValue)).map
      Prod.fst).Nodup ∧
     ("k", AttributeValue.int 7) ∈
       ([("k", AttributeValue.int 7)] : List (String × AttributeValue)) ∧
     tagEligible (AttributeValue.int 7) ∧
     "k" ∈ ([("k", AttributeValue.str "a")] :
       List (String × AttributeValue)).map Prod.fst) ∧
    lookupS (buildTagMap [("k", AttributeValue.str "a")]
      [("k", AttributeValue.int 7)]) "k" =
      some (tagRender (AttributeValue.int 7)) :=
  ⟨⟨by decide, by decide, by decide, by decide⟩,
    tagMap_resource_precedence_amended [("k", AttributeValue.str "a")]
      [("k", AttributeValue.int 7)] "k" (AttributeValue.int 7)
      (by decide) (by decide) (by decide) (by decide)⟩

/-- C10: an attribute whose value is not integer-typed and whose string form
is empty contributes no tag-map entry: if every resource-level occurrence of
a key is such a value, the merged map's entry for the key is exactly the one
produced by the span attributes alone (so the resource value never overrides
a span-level entry), and if the span-level occurrences are also all such
values, the merged map has no entry for the key. -/
theorem tagMap_skips_empty_values
    (spanAttrs resAttrs : List (String × AttributeValue)) (k : String)
    (hres : ∀ kv ∈ resAttrs, kv.1 = k → ¬ tagEligible kv.2) :
    lookupS (buildTagMap spanAttrs resAttrs) k =
      lookupS (spanAttrs.foldl tagMapStep []) k ∧
    ((∀ kv ∈ spanAttrs, kv.1 = k → ¬ tagEligible kv.2) →
      lookupS (buildTagMap spanAttrs resAttrs) k = none) := by
  have h1 := foldl_tagMapStep_lookup_of_not_elig k resAttrs
    (spanAttrs.foldl tagMapStep []) hres
  refine ⟨h1, fun hspan => ?_⟩
  unfold buildTagMap
  rw [h1, foldl_tagMapStep_lookup_of_not_elig k spanAttrs [] hspan]
  rfl

/-- Witness for C10: a boolean resource value for `"k"` does not override
the span-level entry `"a"`, and a key whose only values are an empty string
(span level) and a double (resource level) gets no entry at all. -/
theorem tagMap_skips_empty_values_witness :
    (∀ kv ∈ ([("k", AttributeValue.boolV true)] :
        List (String × AttributeValue)), kv.1 = "k" → ¬ tagEligible kv.2) ∧
    lookupS (buildTagMap [("k", AttributeValue.str "a")]
        [("k", AttributeValue.boolV true)]) "k" =
      lookupS ([("k", AttributeValue.str "a")].foldl tagMapStep []) "k" ∧
    lookupS (buildTagMap [("k", AttributeValue.str ""),
        ("j", AttributeValue.str "x")] [("k", AttributeValue.double)]) "k" =
      none :=
  ⟨by decide,
    (tagMap_skips_empty_values [("k", AttributeValue.str "a")]
      [("k", AttributeValue.boolV true)] "k" (by decide)).1,
    (tagMap_skips_empty_values
      [("k", AttributeValue.str ""), ("j", AttributeValue.str "x")]
      [("k", AttributeValue.double)] "k" (by decide)).2 (by decide)⟩

/-- C7: in `storage.write`, an error from the trace-model write is returned
and neither the index write nor the error write is attempted; an error from
the index write (the model write having succeeded or been skipped) is
returned and the error write is not attempted. -/
theorem write_fail_fast (st : StorageConf) (out : KafkaOutcome) (sp : Span) :
    (st.spanWriterConfigured = true → ∀ e, out.model = some e →
      (write st out sp).1 = some e ∧
      Chan.index ∉ (write st out sp).2 ∧
      Chan.error ∉ (write st out sp).2) ∧
    (st.indexWriterConfigured = true → ∀ e, out.index = some e →
      (st.spanWriterConfigured = false ∨ out.model = none) →
      (write st out sp).1 = some e ∧
      Chan.error ∉ (write st out sp).2) := by
  constructor
  · intro hs e he
    simp [write, writeModel, hs, he]
  · intro hi e he hm
    rcases hm with hm | hm
    · simp [write, writeModel, writeIndex, hm, hi, he]
    · by_cases hs : st.spanWriterConfigured <;>
        simp [write, writeModel, writeIndex, hs, hm, hi, he]

/-- Witness for C7: with all writers configured, a model-write error aborts
everything else; with a successful model write, an index-write error aborts
the error write. -/
theorem write_fail_fast_witness :
    ((write ⟨true, true, true⟩ ⟨some "boom", some "idx", none⟩ sampleSpan).1 =
       some "boom" ∧
     Chan.index ∉
       (write ⟨true, true, true⟩ ⟨some "boom", some "idx", none⟩ sampleSpan).2 ∧
     Chan.error ∉
       (write ⟨true, true, true⟩ ⟨some "boom", some "idx", none⟩ sampleSpan).2) ∧
    ((write ⟨true, true, true⟩ ⟨none, some "idx", some "err"⟩ sampleSpan).1 =
       some "idx" ∧
     Chan.error ∉
       (write ⟨true, true, true⟩ ⟨none, some "idx", some "err"⟩ sampleSpan).2) :=
  ⟨(write_fail_fast ⟨true, true, true⟩ ⟨some "boom", some "idx", none⟩
      sampleSpan).1 rfl "boom" rfl,
    (write_fail_fast ⟨true, true, true⟩ ⟨none, some "idx", some "err"⟩
      sampleSpan).2 rfl "idx" rfl (Or.inr rfl)⟩

/-- Folding the per-span write step appends exactly one log entry per
item. -/
theorem foldl_pushSpanStep_length (st : StorageConf) (out : Nat → KafkaOutcome)
    (u : Nat → Nat → String) :
    ∀ (items : List (String × Resource × RawSpan)) (n : Nat)
      (logs : List (Option String)),
      ((items.foldl (pushSpanStep st out u) (n, logs)).2).length =
        logs.length + items.length := by
  intro items
  induction items with
  | nil => intro n logs; simp
  | cons it rest ih =>
    intro n logs
    rw [List.foldl_cons]
    show ((rest.foldl (pushSpanStep st out u)
      (pushSpanStep st out u (n, logs) it)).2).length = logs.length + (it :: rest).length
    rw [pushSpanStep, ih]
    simp
    omega

/-- The inner scope fold of `flattenTraces` adds one item per span. -/
theorem ilss_foldl_length (r : Resource) :
    ∀ (ilss : List InstrumentationLibrarySpans)
      (acc : List (String × Resource × RawSpan)),
      (ilss.foldl
          (fun acc2 ils =>
            acc2 ++ ils.spans.map (fun s => (ServiceNameForResource r, r, s)))
          acc).length =
        acc.length + (ilss.map (fun ils => ils.spans.length)).sum := by
  intro ilss
  induction ilss with
  | nil => intro acc; simp
  | cons i rest ih =>
    intro acc
    rw [List.foldl_cons, ih]
    simp
    omega

/-- `flattenTraces` enumerates exactly the batch's spans. -/
theorem flattenTraces_go_length :
    ∀ (td : List ResourceSpans) (acc : List (String × Resource × RawSpan)),
      (td.foldl
          (fun acc rs =>
            rs.ilss.foldl
              (fun acc2 ils =>
                acc2 ++ ils.spans.map
                  (fun s => (ServiceNameForResource rs.resource, rs.resource, s)))
              acc)
          acc).length = acc.length + totalSpans td := by
  intro td
  induction td with
  | nil => intro acc; simp [totalSpans]
  | cons rs rest ih =>
    intro acc
    rw [List.foldl_cons, ih, ilss_foldl_length rs.resource]
    simp [totalSpans]
    omega

/-- The length form of `flattenTraces`. -/
theorem flattenTraces_length (td : List ResourceSpans) :
    (flattenTraces td).length = totalSpans td := by
  have h := flattenTraces_go_length td []
  simpa [flattenTraces] using h

/-- C8: `pushTraceData` returns `nil` for every batch, whatever the
per-span broker outcomes are, and the per-span write (whose error is only
logged) is performed for every span of the batch — one log entry per span. -/
theorem pushTraceData_always_ok (st : StorageConf) (out : Nat → KafkaOutcome)
    (u : Nat → Nat → String) (td : List ResourceSpans) :
    (pushTraceData st out u td).1 = none ∧
    (pushTraceData st out u td).2.length = totalSpans td := by
  constructor
  · rfl
  · have h : (pushTraceData st out u td).2.length =
        ([] : List (Option String)).length + (flattenTraces td).length :=
      foldl_pushSpanStep_length st out u (flattenTraces td) 0 []
    rw [h, flattenTraces_length]
    simp
